import Mathlib

/-!
Verification of the identifier-resolution federation of `myhelp.py`
(glob/pattern translation, external-command outcome classification,
package cache refresh and search, built-ins dump parser).

Strings that the Python code scans character by character are embedded
as `List Char`; sentences that are merely assembled are `String`.
-/

namespace Myhelp

/-! ## PatternTranslator: `glob_to_regex` (myhelp.py lines 722-735)

The Python function builds `re.compile("^" + clean_pat + "$")` where
`clean_pat` is `".*".join(map(re.escape, pattern.split("*")))` when the
pattern contains `*`, else `re.escape(pattern)`.  We embed the compiled
regex as a token list: a `lit` token is an `re.escape`d fragment
(every character escaped, so it matches itself literally, a newline
included), a `star` token is the `.*` joiner.  Matching follows
Python's `re` semantics without flags: `^` anchors at the start of the
subject, `.` matches any character except a newline, and `$` matches
at the end of the subject or just before a newline that ends it. -/

/-- A token of the anchored regex produced by `glob_to_regex`. -/
inductive Rtok where
  | lit (frag : List Char)
  | star
  deriving Repr, DecidableEq

/-- Anchored matching of a token list against a subject string with
Python `re` semantics: `lit f` consumes exactly `f`, `star` (the `.*`
joiner) consumes any run of non-newline characters, and the trailing
`$` accepts the end of the subject or a single newline that ends it. -/
def rmatchB : List Rtok → List Char → Bool
  | [], s => s.isEmpty || s == ['\n']
  | .lit f :: rest, s => f.isPrefixOf s && rmatchB rest (s.drop f.length)
  | .star :: rest, s =>
    (List.range (s.length + 1)).any fun i =>
      (s.take i).all (fun c => !(c == '\n')) && rmatchB rest (s.drop i)

/-- Python `str.split("*")`: split on every occurrence of `*`
(fragments may be empty; there is always at least one fragment). -/
def splitStar : List Char → List (List Char)
  | [] => [[]]
  | c :: rest =>
    if c = '*' then [] :: splitStar rest
    else
      match splitStar rest with
      | f :: fs => (c :: f) :: fs
      | [] => [[c]]

/-- `glob_to_regex` (myhelp.py 722-735): if the pattern contains `*`,
split on `*`, escape each fragment, join with `.*`, anchor; otherwise
escape the whole pattern and anchor. -/
def glob_to_regex (pattern : List Char) : List Rtok :=
  if pattern.contains '*' then
    List.intersperse Rtok.star ((splitStar pattern).map Rtok.lit)
  else
    [Rtok.lit pattern]

/-- What the compiled pattern accepts, stated over the fragment list:
the subject consists of the literal fragments in order, with arbitrary
newline-free (possibly empty) text between consecutive fragments, and
optionally one trailing newline after the last fragment. -/
def specMatchRe : List (List Char) → List Char → Prop
  | [], s => s = [] ∨ s = ['\n']
  | [f], s => s = f ∨ s = f ++ ['\n']
  | f :: fs, s => ∃ gap t, s = f ++ gap ++ t ∧
      gap.all (fun c => !(c == '\n')) = true ∧ specMatchRe fs t

/-- A single literal token matches exactly the fragment itself,
optionally followed by one trailing newline. -/
theorem rmatchB_single_lit (f s : List Char) :
    rmatchB [Rtok.lit f] s = true ↔ (s = f ∨ s = f ++ ['\n']) := by
  simp only [rmatchB, Bool.and_eq_true, Bool.or_eq_true, List.isEmpty_iff,
    beq_iff_eq, List.isPrefixOf_iff_prefix]
  constructor
  · rintro ⟨⟨t, rfl⟩, h⟩
    rw [show (f ++ t).drop f.length = t by simp] at h
    rcases h with h | h
    · exact Or.inl (by rw [h, List.append_nil])
    · exact Or.inr (by rw [h])
  · rintro (rfl | rfl)
    · exact ⟨⟨[], by simp⟩, Or.inl (by simp)⟩
    · exact ⟨⟨['\n'], rfl⟩, Or.inr (by simp)⟩

/-- A leading `star` token matches exactly the strings that split into
a newline-free gap followed by a match of the remaining tokens. -/
theorem rmatchB_star (rest : List Rtok) (u : List Char) :
    rmatchB (Rtok.star :: rest) u = true ↔
      ∃ gap t, u = gap ++ t ∧ gap.all (fun c => !(c == '\n')) = true ∧
        rmatchB rest t = true := by
  simp only [rmatchB, List.any_eq_true, List.mem_range, Bool.and_eq_true]
  constructor
  · rintro ⟨i, _, hall, h⟩
    exact ⟨u.take i, u.drop i, (List.take_append_drop i u).symm, hall, h⟩
  · rintro ⟨gap, t, rfl, hall, h⟩
    refine ⟨gap.length, by simp; omega, ?_, ?_⟩
    · rw [show (gap ++ t).take gap.length = gap by simp]
      exact hall
    · rw [show (gap ++ t).drop gap.length = t by simp]
      exact h

/-- Matching the `.*`-interspersed literal fragments is exactly the
fragments-with-newline-free-gaps decomposition of the subject. -/
theorem rmatchB_intersperse : ∀ (frags : List (List Char)), frags ≠ [] →
    ∀ s : List Char,
      (rmatchB (List.intersperse Rtok.star (frags.map Rtok.lit)) s = true ↔
        specMatchRe frags s)
  | [], h, _ => absurd rfl h
  | [f], _, s => by
    simpa [List.intersperse, specMatchRe] using rmatchB_single_lit f s
  | f :: f' :: fs, _, s => by
    have ih := rmatchB_intersperse (f' :: fs) (by simp)
    show rmatchB (Rtok.lit f :: Rtok.star ::
        List.intersperse Rtok.star ((f' :: fs).map Rtok.lit)) s = true ↔ _
    rw [show specMatchRe (f :: f' :: fs) s =
        (∃ gap t, s = f ++ gap ++ t ∧
          gap.all (fun c => !(c == '\n')) = true ∧
          specMatchRe (f' :: fs) t) from rfl]
    rw [show rmatchB (Rtok.lit f :: Rtok.star ::
          List.intersperse Rtok.star ((f' :: fs).map Rtok.lit)) s =
        (f.isPrefixOf s && rmatchB (Rtok.star ::
          List.intersperse Rtok.star ((f' :: fs).map Rtok.lit))
          (s.drop f.length)) from rfl]
    rw [Bool.and_eq_true, List.isPrefixOf_iff_prefix]
    constructor
    · rintro ⟨⟨u, rfl⟩, h2⟩
      rw [show List.drop f.length (f ++ u) = u by simp] at h2
      obtain ⟨gap, t, rfl, hall, h3⟩ := (rmatchB_star _ u).mp h2
      exact ⟨gap, t, by simp, hall, (ih t).mp h3⟩
    · rintro ⟨gap, t, rfl, hall, h3⟩
      refine ⟨⟨gap ++ t, by simp⟩, ?_⟩
      rw [show List.drop f.length (f ++ gap ++ t) = gap ++ t by simp]
      exact (rmatchB_star _ _).mpr ⟨gap, t, rfl, hall, (ih t).mpr h3⟩

/-- A pattern without `*` splits into the single fragment `[p]`. -/
theorem splitStar_no_star : ∀ p : List Char, p.contains '*' = false →
    splitStar p = [p]
  | [], _ => rfl
  | c :: rest, h => by
    simp only [List.contains_cons, Bool.or_eq_false_iff, beq_eq_false_iff_ne,
      ne_eq] at h
    simp [splitStar, fun hc : c = '*' => h.1 hc.symm,
      splitStar_no_star rest h.2, Ne.symm h.1]

/-- `splitStar` always yields at least one fragment. -/
theorem splitStar_ne_nil : ∀ p : List Char, splitStar p ≠ []
  | [] => by simp [splitStar]
  | c :: rest => by
    simp only [splitStar]
    split
    · simp
    · split
      · simp
      · simp

/-- C6 as stated fails under Python `re` semantics: `$` also matches
just before a newline that ends the subject, and `.` does not match a
newline.  So the starless pattern `jack` matches the distinct string
`"jack\n"`, and the pattern `a*b` does not match `"a\nb"`, although
that string is the fragment `a`, then arbitrary text, then the
fragment `b`. -/
theorem glob_to_regex_newline_counterexample :
    rmatchB (glob_to_regex "jack".data) "jack\n".data = true ∧
    "jack\n".data ≠ "jack".data ∧
    ("jack".data).contains '*' = false ∧
    "a\nb".data = "a".data ++ "\n".data ++ "b".data ∧
    ("a*b".data).contains '*' = true ∧
    rmatchB (glob_to_regex "a*b".data) "a\nb".data = false := by
  decide

/-- C6 amended: `glob_to_regex` returns an anchored pattern with
Python `re` matching semantics: for a pattern with no `*`, the result
matches a string iff the string equals the pattern literally or the
pattern followed by one trailing newline; for a pattern with `*`, the
result matches a string iff it consists of the pattern's literal
fragments in order with arbitrary newline-free (possibly empty) text
at each `*`, optionally followed by one trailing newline.  In
particular `glob_to_regex "apple*jack"` matches `"applejack"` and
`"apple    jack"` and does not match `"pineapple"`. -/
theorem glob_to_regex_correct (p s : List Char) :
    (p.contains '*' = false →
      (rmatchB (glob_to_regex p) s = true ↔ (s = p ∨ s = p ++ ['\n']))) ∧
    (p.contains '*' = true →
      (rmatchB (glob_to_regex p) s = true ↔ specMatchRe (splitStar p) s)) ∧
    rmatchB (glob_to_regex "apple*jack".data) "applejack".data = true ∧
    rmatchB (glob_to_regex "apple*jack".data) "apple    jack".data = true ∧
    rmatchB (glob_to_regex "apple*jack".data) "pineapple".data = false := by
  refine ⟨fun h => ?_, fun h => ?_, by decide, by decide, by decide⟩
  · rw [glob_to_regex, h]
    simpa using rmatchB_single_lit p s
  · rw [glob_to_regex, h]
    simpa using rmatchB_intersperse (splitStar p) (splitStar_ne_nil p) s

/-- Witness for C6 amended at concrete patterns: `"jack"` has no `*`,
and `"apple*jack"` has one. -/
theorem glob_to_regex_correct_witness :
    (rmatchB (glob_to_regex "jack".data) "jack".data = true ↔
      ("jack".data = "jack".data ∨
        "jack".data = "jack".data ++ ['\n'])) ∧
    (rmatchB (glob_to_regex "apple*jack".data) "applejack".data = true ↔
      specMatchRe (splitStar "apple*jack".data) "applejack".data) :=
  ⟨(glob_to_regex_correct "jack".data "jack".data).1 (by decide),
   (glob_to_regex_correct "apple*jack".data "applejack".data).2.1 (by decide)⟩

/-! ## PatternTranslator: `escape_glob` (myhelp.py lines 738-764)

The Python function scans the string, recording the indices of `*`
characters as split points unless an escape flag is on; the flag is set
when the current character equals the raw literal `r'\\'`, which is a
TWO-character string, so the comparison is against a two-character
string.  We embed each scanned character as the one-character string
`String.mk [c]`, exactly as Python's `string[ind]` is, and keep the
comparison against the two-character string. -/

/-- The loop of `escape_glob` that records indices of `*` characters
(myhelp.py 744-754): `i` is the current index, `escOn` the
`escape_on` flag.  The escape test compares the one-character string at
the current index with the two-character raw literal `r'\\'`. -/
def escape_glob_splitPtsAux : List Char → Nat → Bool → List Nat
  | [], _, _ => []
  | c :: rest, i, escOn =>
    if escOn then escape_glob_splitPtsAux rest (i + 1) false
    else if String.mk [c] = "\\\\" then escape_glob_splitPtsAux rest (i + 1) true
    else if String.mk [c] = "*" then i :: escape_glob_splitPtsAux rest (i + 1) escOn
    else escape_glob_splitPtsAux rest (i + 1) escOn

/-- Characters `shlex.quote` leaves unquoted: ASCII `\w` plus
`@ % + = : , . - slash` (Python's `_find_unsafe` with `re.ASCII`). -/
def shlexSafeChar (c : Char) : Bool :=
  c.isAlpha || c.isDigit || c == '_' || c == '@' || c == '%' || c == '+' ||
  c == '=' || c == ':' || c == ',' || c == '.' || c == '/' || c == '-'

/-- Python `shlex.quote`: empty string becomes `''`; a string of safe
characters is returned as is; otherwise each `'` is replaced with
`'"'"'` and the result is wrapped in single quotes. -/
def shlexQuote (s : List Char) : List Char :=
  if s = [] then ['\'', '\'']
  else if s.all shlexSafeChar then s
  else
    '\'' ::
      ((s.flatMap fun c =>
        if c = '\'' then ['\'', '"', '\'', '"', '\''] else [c]) ++ ['\''])

/-- The substring extraction of `escape_glob` (myhelp.py 755-762):
`string[prev:ind]` for each recorded index, then the trailing
`string[prev:]`. -/
def escape_glob_cut (s : List Char) : Nat → List Nat → List (List Char)
  | prev, [] => [s.drop prev]
  | prev, i :: rest => (s.drop prev).take (i - prev) :: escape_glob_cut s (i + 1) rest

/-- `escape_glob` (myhelp.py 738-764): split at the recorded indices,
`shlex.quote` every substring, and rejoin with `*`. -/
def escape_glob (s : List Char) : List Char :=
  List.intercalate ['*']
    ((escape_glob_cut s 0 (escape_glob_splitPtsAux s 0 false)).map shlexQuote)

/-- C2 evaluated at the failing input `a\*b`: the `*` at index 2 is
immediately preceded by a backslash, yet it is recorded as a split
point (the escape flag can never fire, since a one-character string is
compared against the two-character literal `r'\\'`), and `escape_glob`
splits there, yielding `'a\'*b` with the escaped `*` as a wildcard
boundary instead of the single quoted fragment `'a\*b'`. -/
theorem escape_glob_splits_escaped_star :
    escape_glob_splitPtsAux "a\\*b".data 0 false = [2] ∧
    escape_glob "a\\*b".data = "'a\\'*b".data ∧
    escape_glob "a\\*b".data ≠ shlexQuote "a\\*b".data := by
  refine ⟨by decide, by decide, by decide⟩

/-! ## ExternalCommandRunner: `run_cmd` (myhelp.py lines 133-197)

`subprocess.run` without `check=True` never raises
`CalledProcessError`, so the `except` branch of `run_cmd` is dead; the
observable behaviour is the classification of the completed process:
its exit status, stdout, and stderr.  We embed that triple as
`CmdResult` and `run_cmd` as the classification with
`exit_on_error=False`: either the trimmed stdout or the raised
`CalledProcessError{returncode, cmd, output, stderr}`. -/

/-- One element of a Python `ignore_rc` list: an integer return code or
the string `"*"`. -/
inductive RCItem where
  | rc (n : Int)
  | star
  deriving Repr, DecidableEq

/-- The shapes the `ignore_rc` argument may take: the string `"*"`, a
list, or a single integer (any other Python value raises `ValueError`
and is outside the embedded domain). -/
inductive IgnoreRC where
  | star
  | codes (l : List RCItem)
  | single (n : Int)
  deriving Repr, DecidableEq

/-- The outcome of the spawned process: exit status, stdout, stderr. -/
structure CmdResult where
  returncode : Int
  stdout : String
  stderr : String
  deriving Repr, DecidableEq

/-- The payload of the `CalledProcessError` raised by `run_cmd`. -/
structure CommandExecutionError where
  returncode : Int
  output : String
  stderr : String
  deriving Repr, DecidableEq

/-- The integer entries of an `ignore_rc` list. -/
def rcInts (l : List RCItem) : List Int :=
  l.filterMap fun | .rc n => some n | .star => none

/-- The `ignore_rc` normalisation at the top of `run_cmd` (myhelp.py
152-162): `"*"` anywhere means ignore every return code (`None`); a
list keeps its integer entries with `0` appended when absent; a single
integer becomes `[0, n]`. -/
def runCmdNormalize : IgnoreRC → Option (List Int)
  | .star => none
  | .codes l =>
    if RCItem.star ∈ l then none
    else if (0 : Int) ∈ rcInts l then some (rcInts l) else some (rcInts l ++ [0])
  | .single n => some [0, n]

/-- `run_cmd` outcome classification (myhelp.py 183-197, with
`exit_on_error=False`): raise when the return code is not ignorable
(`ignore_rc` truthy and code not in it) or when stderr is non-empty and
not ignored; otherwise return the trimmed stdout. -/
def runCmd (spec : IgnoreRC) (ignore_stderr : Bool) (res : CmdResult) :
    Except CommandExecutionError String :=
  let rcBad : Bool :=
    match runCmdNormalize spec with
    | none => false
    | some l => !l.isEmpty && !l.contains res.returncode
  if rcBad || (!ignore_stderr && !res.stderr.isEmpty) then
    .error ⟨res.returncode, res.stdout, res.stderr⟩
  else
    .ok res.stdout.trim

/-- The integer codes the caller configured as ignorable. -/
def ignoreSet : IgnoreRC → List Int
  | .star => []
  | .codes l => rcInts l
  | .single n => [n]

/-- Whether the policy ignores every return code. -/
def ignoresAll : IgnoreRC → Bool
  | .star => true
  | .codes l => decide (RCItem.star ∈ l)
  | .single _ => false

/-- The normalised ignore list is `none` exactly for ignore-all
policies, and otherwise is a non-empty list whose members are `0`
together with the configured codes. -/
theorem runCmdNormalize_spec (spec : IgnoreRC) :
    (runCmdNormalize spec = none ↔ ignoresAll spec = true) ∧
    ∀ l, runCmdNormalize spec = some l →
      l ≠ [] ∧ ∀ rc : Int, rc ∈ l ↔ rc = 0 ∨ rc ∈ ignoreSet spec := by
  cases spec with
  | star => simp [runCmdNormalize, ignoresAll]
  | codes l =>
    by_cases hstar : RCItem.star ∈ l
    · simp [runCmdNormalize, ignoresAll, hstar]
    · by_cases h0 : (0 : Int) ∈ rcInts l
      · refine ⟨by simp [runCmdNormalize, ignoresAll, hstar, h0], ?_⟩
        intro l' hl'
        simp only [runCmdNormalize, if_neg hstar, if_pos h0,
          Option.some.injEq] at hl'
        subst hl'
        refine ⟨fun hnil => by rw [hnil] at h0; exact absurd h0 (List.not_mem_nil 0),
          fun rc => ?_⟩
        simp only [ignoreSet]
        constructor
        · exact fun h => Or.inr h
        · rintro (rfl | h)
          · exact h0
          · exact h
      · refine ⟨by simp [runCmdNormalize, ignoresAll, hstar, h0], ?_⟩
        intro l' hl'
        simp only [runCmdNormalize, if_neg hstar, if_neg h0,
          Option.some.injEq] at hl'
        subst hl'
        refine ⟨by simp, fun rc => ?_⟩
        simp only [ignoreSet, List.mem_append, List.mem_singleton]
        tauto
  | single n =>
    refine ⟨by simp [runCmdNormalize, ignoresAll], ?_⟩
    intro l' hl'
    simp only [runCmdNormalize, Option.some.injEq] at hl'
    subst hl'
    refine ⟨by simp, fun rc => ?_⟩
    simp [ignoreSet]

/-- C4: `run_cmd` returns the trimmed stdout exactly when the exit code
is `0`, is in the ignore set, or the policy ignores all codes, and (if
the policy does not tolerate stderr) stderr is empty; otherwise it
raises `CommandExecutionError` carrying the exit code, stdout, and
stderr.  A non-empty stderr with stderr-tolerance off is a failure even
when the exit code is ignorable. -/
theorem runCmd_classification (spec : IgnoreRC) (ignore_stderr : Bool)
    (res : CmdResult) :
    runCmd spec ignore_stderr res =
      if (res.returncode = 0 ∨ res.returncode ∈ ignoreSet spec ∨
            ignoresAll spec = true) ∧
          (ignore_stderr = true ∨ res.stderr = "") then
        Except.ok res.stdout.trim
      else
        Except.error ⟨res.returncode, res.stdout, res.stderr⟩ := by
  obtain ⟨hall, hsome⟩ := runCmdNormalize_spec spec
  have hstIff : (!ignore_stderr && !res.stderr.isEmpty) = false ↔
      (ignore_stderr = true ∨ res.stderr = "") := by
    cases ignore_stderr <;> cases hs : res.stderr.isEmpty <;>
      simp_all [String.isEmpty_iff]
    · intro h
      rw [h] at hs
      exact absurd hs (by decide)
  unfold runCmd
  cases hn : runCmdNormalize spec with
  | none =>
    have hign : ignoresAll spec = true := hall.mp hn
    simp only [hn]
    by_cases hst : ignore_stderr = true ∨ res.stderr = ""
    · rw [show (false || (!ignore_stderr && !res.stderr.isEmpty)) = false by
        rw [hstIff.mpr hst]
        rfl]
      rw [if_neg (by simp : ¬((false : Bool) = true))]
      rw [if_pos ⟨Or.inr (Or.inr hign), hst⟩]
    · have hc : (!ignore_stderr && !res.stderr.isEmpty) = true := by
        cases h : (!ignore_stderr && !res.stderr.isEmpty)
        · exact absurd (hstIff.mp h) hst
        · rfl
      rw [show (false || (!ignore_stderr && !res.stderr.isEmpty)) = true by
        rw [hc]
        rfl]
      rw [if_pos rfl]
      rw [if_neg (fun hP => hst hP.2)]
  | some l =>
    obtain ⟨hne, hmem⟩ := hsome l hn
    have hign : ignoresAll spec = false := by
      cases h : ignoresAll spec
      · rfl
      · rw [← hall, hn] at h
        exact absurd h (by simp)
    have hle : l.isEmpty = false := by
      cases l
      · exact absurd rfl hne
      · rfl
    simp only [hn]
    by_cases hrc : res.returncode = 0 ∨ res.returncode ∈ ignoreSet spec
    · have hin : l.contains res.returncode = true := by
        rw [List.elem_iff]
        exact (hmem res.returncode).mpr hrc
      by_cases hst : ignore_stderr = true ∨ res.stderr = ""
      · rw [show (!l.isEmpty && !l.contains res.returncode ||
            (!ignore_stderr && !res.stderr.isEmpty)) = false by
          rw [hin, hle, hstIff.mpr hst]
          rfl]
        rw [if_neg (by simp : ¬((false : Bool) = true))]
        rw [if_pos ⟨by tauto, hst⟩]
      · have hc : (!ignore_stderr && !res.stderr.isEmpty) = true := by
          cases h : (!ignore_stderr && !res.stderr.isEmpty)
          · exact absurd (hstIff.mp h) hst
          · rfl
        rw [show (!l.isEmpty && !l.contains res.returncode ||
            (!ignore_stderr && !res.stderr.isEmpty)) = true by
          rw [hin, hle, hc]
          rfl]
        rw [if_pos rfl]
        rw [if_neg (fun hP => hst hP.2)]
    · have hin : l.contains res.returncode = false := by
        cases h : l.contains res.returncode
        · rfl
        · rw [List.elem_iff] at h
          exact absurd ((hmem res.returncode).mp h) hrc
      rw [show (!l.isEmpty && !l.contains res.returncode ||
          (!ignore_stderr && !res.stderr.isEmpty)) = true by
        rw [hin, hle]
        rfl]
      rw [if_pos rfl]
      rw [if_neg (fun hP => by
        rcases hP.1 with h | h | h
        · exact hrc (Or.inl h)
        · exact hrc (Or.inr h)
        · rw [hign] at h
          exact absurd h (by simp))]

/-! ## CmdViewer (myhelp.py lines 639-719)

A `CmdViewer` wraps one command template; `__getitem__` (lookup) and
`search` run the command through `run_cmd` with the viewer's stored
ignore policy and feed the captured stdout to the formatter.  The
external command's outcome is passed in as a `CmdResult`.  Python's
`set(ignore_rc).union({0, 127})` is embedded as a deduplicated list
with the same membership. -/

/-- A constructed `CmdViewer`: `ignore_rc = none` embeds the stored
string `"*"` (ignore everything). -/
structure CmdViewer where
  cmd_name : String
  cmd_string : String
  ignore_rc : Option (List Int)
  ignore_stderr : Bool
  fn : String → String → List String
  glob_able : Bool

/-- The `ignore_rc` normalisation in `CmdViewer.__init__` (myhelp.py
670-688): `"*"` anywhere means ignore all; otherwise the configured
codes are unioned with `{CMD_OK, CMD_NOT_FOUND} = {0, 127}`. -/
def CmdViewer.normalizeIgnoreRC : IgnoreRC → Option (List Int)
  | .star => none
  | .codes l =>
    if RCItem.star ∈ l then none
    else some ((rcInts l ++ [0, 127]).dedup)
  | .single n => some ([n, 0, 127].dedup)

/-- `CmdViewer.__init__` (myhelp.py 647-688). -/
def CmdViewer.init (cmd_name cmd_string : String) (ignore_rc : IgnoreRC)
    (ignore_stderr : Bool) (fn : String → String → List String)
    (glob_able : Bool) : CmdViewer :=
  ⟨cmd_name, cmd_string, CmdViewer.normalizeIgnoreRC ignore_rc,
    ignore_stderr, fn, glob_able⟩

/-- The stored `self.ignore_rc` as it is handed back to `run_cmd`. -/
def CmdViewer.storedSpec (v : CmdViewer) : IgnoreRC :=
  match v.ignore_rc with
  | none => IgnoreRC.star
  | some l => IgnoreRC.codes (l.map RCItem.rc)

/-- `CmdViewer.__getitem__` (myhelp.py 690-702): run the command and
format its stdout; a `run_cmd` failure propagates. -/
def CmdViewer.lookup (v : CmdViewer) (target : String) (res : CmdResult) :
    Except CommandExecutionError (List String) :=
  match runCmd v.storedSpec v.ignore_stderr res with
  | .ok out => .ok (v.fn target out)
  | .error e => .error e

/-- The failures of `CmdViewer.search`: a propagated `run_cmd` error,
or the `ValueError` raised when the viewer is not glob-capable. -/
inductive SearchError where
  | exec (e : CommandExecutionError)
  | capability (cmd_name : String)
  deriving Repr, DecidableEq

/-- `CmdViewer.search` (myhelp.py 704-719): only glob-capable viewers
run the command; otherwise a `ValueError` is raised immediately. -/
def CmdViewer.search (v : CmdViewer) (pattern : String) (res : CmdResult) :
    Except SearchError (List String) :=
  if v.glob_able then
    match runCmd v.storedSpec v.ignore_stderr res with
    | .ok out => .ok (v.fn pattern out)
    | .error e => .error (.exec e)
  else
    .error (.capability v.cmd_name)

/-- Extracting the integers back out of a pure-integer `ignore_rc`
list is the identity. -/
theorem rcInts_map_rc : ∀ L : List Int, rcInts (L.map RCItem.rc) = L
  | [] => rfl
  | n :: t => by
    simp only [List.map_cons, rcInts, List.filterMap_cons]
    exact congrArg (n :: ·) (rcInts_map_rc t)

/-- `run_cmd`'s normalisation leaves a pure-integer list containing `0`
unchanged. -/
theorem runCmdNormalize_of_ints (L : List Int) (h0 : (0 : Int) ∈ L) :
    runCmdNormalize (IgnoreRC.codes (L.map RCItem.rc)) = some L := by
  have hstar : RCItem.star ∉ L.map RCItem.rc := by simp
  rw [runCmdNormalize, if_neg hstar, rcInts_map_rc, if_pos h0]

/-- `run_cmd` succeeds whenever the return code is in the normalised
ignore list and stderr is tolerated or empty. -/
theorem runCmd_ok_of_mem (spec : IgnoreRC) (ignore_stderr : Bool)
    (res : CmdResult) (l : List Int) (hn : runCmdNormalize spec = some l)
    (hmem : res.returncode ∈ l) (hst : ignore_stderr = true ∨ res.stderr = "") :
    runCmd spec ignore_stderr res = .ok res.stdout.trim := by
  have hc : l.contains res.returncode = true := List.elem_iff.mpr hmem
  have hstf : (!ignore_stderr && !res.stderr.isEmpty) = false := by
    rcases hst with h | h
    · rw [h]
      rfl
    · rw [h]
      cases ignore_stderr <;> rfl
  simp only [runCmd, hn, hc, hstf, Bool.not_true, Bool.and_false, Bool.or_false]
  rfl

/-- Every finite ignore specification normalises (in
`CmdViewer.__init__`) to a list containing `0` and `127`. -/
theorem normalizeIgnoreRC_finite (spec : IgnoreRC)
    (hfin : spec ≠ IgnoreRC.star ∧
      ∀ l, spec = IgnoreRC.codes l → RCItem.star ∉ l) :
    ∃ L, CmdViewer.normalizeIgnoreRC spec = some L ∧
      (0 : Int) ∈ L ∧ (127 : Int) ∈ L := by
  cases spec with
  | star => exact absurd rfl hfin.1
  | codes l =>
    have hstar : RCItem.star ∉ l := hfin.2 l rfl
    refine ⟨(rcInts l ++ [0, 127]).dedup, ?_, ?_, ?_⟩
    · rw [CmdViewer.normalizeIgnoreRC, if_neg hstar]
    · rw [List.mem_dedup]
      simp
    · rw [List.mem_dedup]
      simp
  | single n =>
    refine ⟨[n, 0, 127].dedup, rfl, ?_, ?_⟩ <;>
      · rw [List.mem_dedup]
        simp

/-- C8 as stated fails: a `CmdViewer` built with the finite ignore
specification `2` but with stderr-tolerance off raises on an external
command that exits with status 127 and writes to stderr, even though
127 is in the effective ignore set. -/
theorem cmdviewer_127_counterexample :
    (CmdViewer.init "getent passwd" "getent passwd %s" (IgnoreRC.single 2)
        false (fun _ _ => []) false).lookup "x" ⟨127, "", "oops"⟩ =
      Except.error ⟨127, "", "oops"⟩ := rfl

/-- C8 amended: for every `CmdViewer` constructed with a finite ignore
specification (an integer, or a list not containing `"*"`), the
effective ignore set contains exit codes `0` and `127`; hence for every
target, `lookup` (and `search` on a glob-capable viewer) succeeds when
the external command exits with status 127, provided the viewer
tolerates stderr or the command's stderr is empty. -/
theorem cmdviewer_ignores_127 (cmd_name cmd_string : String)
    (spec : IgnoreRC) (ignore_stderr : Bool)
    (fn : String → String → List String) (glob_able : Bool)
    (hfin : spec ≠ IgnoreRC.star ∧
      ∀ l, spec = IgnoreRC.codes l → RCItem.star ∉ l)
    (target : String) (res : CmdResult)
    (h127 : res.returncode = 127)
    (hst : ignore_stderr = true ∨ res.stderr = "") :
    ∃ L, (CmdViewer.init cmd_name cmd_string spec ignore_stderr fn
            glob_able).ignore_rc = some L ∧
      (0 : Int) ∈ L ∧ (127 : Int) ∈ L ∧
      (CmdViewer.init cmd_name cmd_string spec ignore_stderr fn
          glob_able).lookup target res = .ok (fn target res.stdout.trim) ∧
      (glob_able = true →
        (CmdViewer.init cmd_name cmd_string spec ignore_stderr fn
            glob_able).search target res = .ok (fn target res.stdout.trim)) := by
  obtain ⟨L, hL, h0, h127L⟩ := normalizeIgnoreRC_finite spec hfin
  have hstored : (CmdViewer.init cmd_name cmd_string spec ignore_stderr fn
      glob_able).storedSpec = IgnoreRC.codes (L.map RCItem.rc) := by
    rw [CmdViewer.storedSpec, CmdViewer.init]
    simp only [hL]
  have hrun : runCmd (IgnoreRC.codes (L.map RCItem.rc)) ignore_stderr res =
      .ok res.stdout.trim :=
    runCmd_ok_of_mem _ _ _ L (runCmdNormalize_of_ints L h0)
      (h127 ▸ h127L) hst
  refine ⟨L, by rw [CmdViewer.init]; simp only [hL], h0, h127L, ?_, ?_⟩
  · rw [CmdViewer.lookup, hstored]
    simp only [CmdViewer.init]
    rw [hrun]
  · intro hg
    rw [CmdViewer.search, hstored]
    simp only [CmdViewer.init]
    rw [if_pos hg, hrun]

/-- Witness for C8 amended: the `man` viewer's configuration
(`ignore_rc = 16`) with stderr tolerated, at exit status 127. -/
theorem cmdviewer_ignores_127_witness :
    ∃ L, (CmdViewer.init "man" "man --whatis %s 2>/dev/null"
            (IgnoreRC.single 16) true (fun _ _ => []) false).ignore_rc =
        some L ∧
      (0 : Int) ∈ L ∧ (127 : Int) ∈ L ∧
      (CmdViewer.init "man" "man --whatis %s 2>/dev/null"
          (IgnoreRC.single 16) true (fun _ _ => []) false).lookup "x"
          ⟨127, "", ""⟩ = .ok ((fun _ _ => ([] : List String)) "x" "".trim) ∧
      (false = true →
        (CmdViewer.init "man" "man --whatis %s 2>/dev/null"
            (IgnoreRC.single 16) true (fun _ _ => []) false).search "x"
            ⟨127, "", ""⟩ = .ok ((fun _ _ => ([] : List String)) "x" "".trim)) :=
  cmdviewer_ignores_127 "man" "man --whatis %s 2>/dev/null"
    (IgnoreRC.single 16) true (fun _ _ => []) false
    ⟨by simp, fun l hl => by simp at hl⟩ "x" ⟨127, "", ""⟩ rfl (Or.inl rfl)

/-! ## PackageViewer: the package table and `search` (myhelp.py 280-407)

The `Packages` table has columns `(id, Name, Type, Description)` (the
`id` is the autoincrement primary key), so a `SELECT *` row is the
4-tuple `(id, Name, Type, Description)`: `record[0]` is the id,
`record[2]` the Type, `record[3]` the Description.  SQLite's `LIKE` is
embedded with its default semantics: `%` matches any sequence, `_` any
single character, other characters compare ASCII-case-insensitively;
`Name = ?` is exact (binary) equality. -/

/-- One row of the `Packages` table, `id` included. -/
structure PkgRow where
  id : Nat
  Name : String
  «Type» : String
  Description : String
  deriving Repr, DecidableEq

/-- SQLite `LIKE` with default options: `%` matches any sequence, `_`
any one character, anything else matches ASCII-case-insensitively. -/
def likeMatchB : List Char → List Char → Bool
  | [], s => s.isEmpty
  | '%' :: ps, s => (List.range (s.length + 1)).any fun i => likeMatchB ps (s.drop i)
  | '_' :: ps, s =>
    match s with
    | [] => false
    | _ :: t => likeMatchB ps t
  | p :: ps, s =>
    match s with
    | [] => false
    | c :: t => (c.toLower == p.toLower) && likeMatchB ps t

/-- `PackageViewer.glob_to_sql` (myhelp.py 405-407): replace every `*`
with `%`. -/
def PackageViewer.glob_to_sql (pattern : List Char) : List Char :=
  pattern.map fun c => if c = '*' then '%' else c

/-- The query string `PackageViewer.search` actually queries with: the
glob-to-SQL translation when the target contains `*`, else the target
itself (the local reassignment of `target` in myhelp.py 390-391). -/
def PackageViewer.searchEff (target : List Char) : List Char :=
  if target.contains '*' then PackageViewer.glob_to_sql target else target

/-- `PackageViewer.search` (myhelp.py 384-403): when the (possibly
translated) query contains `%`, run `SELECT * ... WHERE Name LIKE ?`
and format each row as `f"{record[0]} is a {record[2]}."`; otherwise
run `SELECT * ... WHERE Name=?` and format each row as
`f"{target} is a {record[3]}."`. -/
def PackageViewer.search (target : List Char) (table : List PkgRow) :
    List String :=
  let t := PackageViewer.searchEff target
  if t.contains '%' then
    (table.filter fun r => likeMatchB t r.Name.data).map
      fun r => (toString r.id ++ " is a " ++ r.«Type» ++ ".")
  else
    (table.filter fun r => r.Name.data == t).map
      fun r => (String.mk t ++ " is a " ++ r.Description ++ ".")

/-- C1 evaluated at a failing input: the glob query `a*` LIKE-matches
the row `(id 1, Name "apt-utils", Type "apt", Description "Debian
package")`, but the emitted sentence is built from the row's `id` and
`Type` columns (`record[0]`, `record[2]` of the `SELECT *` 4-tuple),
not from its `Name` and `Description`. -/
theorem packageviewer_search_wrong_columns :
    PackageViewer.search "a*".data [⟨1, "apt-utils", "apt", "Debian package"⟩] =
      ["1 is a apt."] ∧
    PackageViewer.search "a*".data [⟨1, "apt-utils", "apt", "Debian package"⟩] ≠
      ["apt-utils is a Debian package."] := by
  refine ⟨by decide, by decide⟩

/-- C9: `PackageViewer.search` runs the SQL `LIKE` query exactly when
the (possibly glob-translated) query contains `%`, and the exact
equality query otherwise; consequently a query containing a literal `%`
but no `*` has its `%` treated as a SQL wildcard: `ab%` matches the row
named `abc`, which contains no `%` at all. -/
theorem packageviewer_search_branch (target : List Char) (table : List PkgRow) :
    ((PackageViewer.searchEff target).contains '%' = true →
      PackageViewer.search target table =
        (table.filter fun r =>
            likeMatchB (PackageViewer.searchEff target) r.Name.data).map
          fun r => (toString r.id ++ " is a " ++ r.«Type» ++ ".")) ∧
    ((PackageViewer.searchEff target).contains '%' = false →
      PackageViewer.search target table =
        (table.filter fun r => r.Name.data == PackageViewer.searchEff target).map
          fun r => (String.mk (PackageViewer.searchEff target) ++ " is a " ++ r.Description ++ ".")) ∧
    "ab%".data.contains '*' = false ∧
    PackageViewer.search "ab%".data [⟨7, "abc", "apt", "pkg"⟩] =
      ["7 is a apt."] := by
  refine ⟨fun h => ?_, fun h => ?_, by decide, by decide⟩
  · rw [PackageViewer.search]
    simp only [h, if_true]
  · rw [PackageViewer.search]
    simp only [h, Bool.false_eq_true, if_false]

/-- Witness for C9 at concrete queries: `ab%` goes through the LIKE
branch, `abc` through the exact branch. -/
theorem packageviewer_search_branch_witness :
    PackageViewer.search "ab%".data [⟨7, "abc", "apt", "pkg"⟩] =
      (([⟨7, "abc", "apt", "pkg"⟩] : List PkgRow).filter fun r =>
          likeMatchB (PackageViewer.searchEff "ab%".data) r.Name.data).map
        (fun r => (toString r.id ++ " is a " ++ r.«Type» ++ ".")) ∧
    PackageViewer.search "abc".data [⟨7, "abc", "apt", "pkg"⟩] =
      (([⟨7, "abc", "apt", "pkg"⟩] : List PkgRow).filter fun r =>
          r.Name.data == PackageViewer.searchEff "abc".data).map
        (fun r => (String.mk (PackageViewer.searchEff "abc".data) ++ " is a " ++ r.Description ++ ".")) :=
  ⟨(packageviewer_search_branch "ab%".data [⟨7, "abc", "apt", "pkg"⟩]).1 (by decide),
   (packageviewer_search_branch "abc".data [⟨7, "abc", "apt", "pkg"⟩]).2.1 (by decide)⟩

/-! ## PackageViewer: `reload` (myhelp.py 339-371)

`reload` first deletes every row of the `Packages` table, then reads
the YAML manifest, asserts its `version` equals
`YAML_FILE_VERSION = 1`, and for each manifest entry whose listing
program exists (non-empty `which` output) bulk-inserts one
`(Name, Type, Description)` row per line of the listing command's
output.  The external commands are embedded as the fixed output
functions `which` (the probe `which <key>`) and `run` (the listing
command).  We record the performed table operations as a `DBOp` trace;
the id column is the autoincrement key and is not part of the inserted
values, so rows are embedded as `(Name, Type, Description)` triples. -/

/-- One entry of the manifest's `packages` map. -/
structure ManifestEntry where
  key : String
  command : String
  description : String
  deriving Repr, DecidableEq

/-- The YAML manifest: a top-level version and the `packages` map. -/
structure Manifest where
  version : Int
  packages : List ManifestEntry
  deriving Repr, DecidableEq

/-- The values a `reload` insertion writes: `(Name, Type, Description)`. -/
structure PkgTriple where
  Name : String
  «Type» : String
  Description : String
  deriving Repr, DecidableEq

/-- A write operation on the `Packages` table: delete-all or insert. -/
inductive DBOp where
  | del
  | ins (r : PkgTriple)
  deriving Repr, DecidableEq

/-- Python `str.splitlines` restricted to `\n` separators: like
`splitOn`, but a trailing newline does not produce a final empty
line, and the empty string has no lines. -/
def pySplitlines (s : String) : List String :=
  let parts := s.splitOn "\n"
  if parts.getLast? = some "" then parts.dropLast else parts

/-- `PackageViewer.YAML_FILE_VERSION` (myhelp.py 287). -/
def PackageViewer.YAML_FILE_VERSION : Int := 1

/-- The operation trace of `PackageViewer.reload` (myhelp.py 339-371):
delete all rows, then — if the manifest version matches — insert one
row per listed package for every entry whose listing program exists.
A version mismatch fails the assertion; the error carries the
operations performed before the failure. -/
def PackageViewer.reloadOps (which run : String → String) (m : Manifest) :
    Except (List DBOp) (List DBOp) :=
  if m.version = PackageViewer.YAML_FILE_VERSION then
    .ok ([DBOp.del] ++
      (m.packages.filter fun e => !(which e.key).trim.isEmpty).flatMap
        fun e => (pySplitlines (run e.command)).map
          fun pkg => DBOp.ins ⟨pkg, e.key, e.description⟩)
  else
    .error [DBOp.del]

/-- Applying a trace of table operations to a table state. -/
def applyOps : List PkgTriple → List DBOp → List PkgTriple
  | db, [] => db
  | _, .del :: rest => applyOps [] rest
  | db, .ins r :: rest => applyOps (db ++ [r]) rest

/-- The `Packages` table state after a `reload` (whether or not the
version assertion fired, the operations performed so far have been
applied to the connection). -/
def PackageViewer.reloadTable (which run : String → String) (m : Manifest)
    (db : List PkgTriple) : List PkgTriple :=
  applyOps db
    (match PackageViewer.reloadOps which run m with
     | .ok ops => ops
     | .error ops => ops)

/-- C5: a manifest whose version differs from `YAML_FILE_VERSION = 1`
makes `reload` fail the version assertion, and the operations it
performed contain no insertion into the package table. -/
theorem reload_version_mismatch (which run : String → String) (m : Manifest)
    (h : m.version ≠ PackageViewer.YAML_FILE_VERSION) :
    ∃ ops, PackageViewer.reloadOps which run m = Except.error ops ∧
      ∀ r, DBOp.ins r ∉ ops := by
  refine ⟨[DBOp.del], ?_, ?_⟩
  · rw [PackageViewer.reloadOps, if_neg h]
  · intro r hr
    simp at hr

/-- Witness for C5: a `version: 2` manifest with no reachable external
commands. -/
theorem reload_version_mismatch_witness :
    ∃ ops, PackageViewer.reloadOps (fun _ => "") (fun _ => "")
        ⟨2, [⟨"apt", "apt list", "Debian package"⟩]⟩ = Except.error ops ∧
      ∀ r, DBOp.ins r ∉ ops :=
  reload_version_mismatch (fun _ => "") (fun _ => "")
    ⟨2, [⟨"apt", "apt list", "Debian package"⟩]⟩ (by decide)

/-- A trace that begins with delete-all erases any dependence on the
starting table state. -/
theorem applyOps_del (rest : List DBOp) (db db' : List PkgTriple) :
    applyOps db (DBOp.del :: rest) = applyOps db' (DBOp.del :: rest) := by
  rw [applyOps, applyOps]

/-- Every `reload` trace begins with the delete-all operation. -/
theorem reloadOps_head (which run : String → String) (m : Manifest) :
    ∃ rest, (match PackageViewer.reloadOps which run m with
      | .ok ops => ops
      | .error ops => ops) = DBOp.del :: rest := by
  rw [PackageViewer.reloadOps]
  by_cases h : m.version = PackageViewer.YAML_FILE_VERSION
  · rw [if_pos h]
    exact ⟨_, rfl⟩
  · rw [if_neg h]
    exact ⟨[], rfl⟩

/-- C7: with the manifest and the outputs of the external listing
commands fixed, running `reload` a second time leaves the package
table (its `(Name, Type, Description)` rows; the autoincrement id
column is not modelled) exactly as one run left it — refresh is
idempotent on an unchanged manifest. -/
theorem reload_idempotent (which run : String → String) (m : Manifest)
    (db : List PkgTriple) :
    PackageViewer.reloadTable which run m
        (PackageViewer.reloadTable which run m db) =
      PackageViewer.reloadTable which run m db := by
  obtain ⟨rest, hrest⟩ := reloadOps_head which run m
  unfold PackageViewer.reloadTable
  rw [hrest]
  exact applyOps_del rest _ db

/-! ## BuiltInViewer: the built-ins dump parser (myhelp.py 472-637)

`BuiltInViewer.parse` is a state machine over `_mode_` (the active
section, initially `None`) and `results` (one record list per section
key `ALIAS`, `DECLARE`, `SET`, `TYPE`).  A line framed by `###` sets
the mode; any other line before the first header raises
`ValueError(line)`; non-blank lines are dispatched to the active
section's parser.  The Python section parsers use anchored regexes,
embedded below by their (backtracking-free) string semantics. -/

/-- Python `str.strip()` on the character list. -/
def pyStrip (l : List Char) : List Char :=
  ((l.dropWhile Char.isWhitespace).reverse.dropWhile Char.isWhitespace).reverse

/-- Python `str.rstrip()` on the character list (applied by
`BuiltInViewer.__init__` to every input line). -/
def pyRstrip (l : List Char) : List Char :=
  (l.reverse.dropWhile Char.isWhitespace).reverse

/-- Python `str.strip("# ")`: remove leading and trailing `#` and
space characters. -/
def stripHashSpace (l : List Char) : List Char :=
  ((l.dropWhile fun c => c == '#' || c == ' ').reverse.dropWhile
    fun c => c == '#' || c == ' ').reverse

/-- The section-header test of `BuiltInViewer.parse` (myhelp.py 528):
`line.startswith("###") and line.endswith("###")`. -/
def isHeaderLine (l : List Char) : Bool :=
  "###".data.isPrefixOf l && "###".data.isSuffixOf l

/-- The label stored in `_mode_`: `line.strip("# ").lower()`. -/
def headerLabel (l : List Char) : String :=
  String.mk ((stripHashSpace l).map Char.toLower)

/-- The regex of `_parse_alias` (myhelp.py 544),
`^alias ([^=]*)=(.*)$`: after the literal `alias `, group 1 is
everything before the first `=` and group 2 everything after it. -/
def parseAliasLine (l : List Char) : Option (List Char × List Char) :=
  if "alias ".data.isPrefixOf l then
    let rest := l.drop 6
    let name := rest.takeWhile fun c => !(c == '=')
    if name.length < rest.length then some (name, rest.drop (name.length + 1))
    else none
  else none

/-- The regex of `_parse_declare` (myhelp.py 558),
`^declare -([^ ]*) ([^ =]*).*$`: after the literal `declare -`,
group 1 is the maximal run of non-spaces, which must be followed by a
space; group 2 is the following maximal run free of space and `=`. -/
def parseDeclareLine (l : List Char) : Option (List Char × List Char) :=
  if "declare -".data.isPrefixOf l then
    let rest := l.drop 9
    let flags := rest.takeWhile fun c => !(c == ' ')
    match rest.drop flags.length with
    | ' ' :: tail => some (flags, tail.takeWhile fun c => !(c == ' ') && !(c == '='))
    | _ => none
  else none

/-- `BuiltInViewer._declare_attr_` (myhelp.py 484-496); `none` embeds a
Python `KeyError` on an unknown flag character, `some none` the
attribute `None`. -/
def declareAttr : Char → Option (Option String)
  | '-' => some none
  | 'a' => some (some "indexed array")
  | 'A' => some (some "associative array")
  | 'f' => some (some "function")
  | 'i' => some (some "integer")
  | 'l' => some (some "convert to lower")
  | 'n' => some (some "reference")
  | 'r' => some (some "readonly")
  | 't' => some (some "trace")
  | 'u' => some (some "convert to upper case")
  | 'x' => some (some "export")
  | _ => none

/-- The message `_parse_declare` builds from the decoded attribute
list (myhelp.py 563-570). -/
def declareMsg (name : String) (attrs : List (Option String)) : String :=
  if attrs.contains none then (name ++ " is a shell variable.")
  else
    (name ++ " has the attribute(s): ") ++
      String.intercalate ", " (attrs.map fun a => a.getD "") ++ "."

/-- The two regexes of `_parse_set` (myhelp.py 580, 587):
`^([a-zA-Z0-9_]+)=` yields a shell-variable record,
`^([a-zA-Z0-9_]+) \(\)` a shell-function record; other lines are
skipped. -/
def parseSetLine (l : List Char) : Option (String × String) :=
  let name := l.takeWhile fun c => c.isAlphanum || c == '_'
  if name.isEmpty then none
  else
    let rest := l.drop name.length
    if rest.head? = some '=' then
      some (String.mk name, (String.mk name ++ " is a shell variable."))
    else if " ()".data.isPrefixOf rest then
      some (String.mk name, (String.mk name ++ " is a shell function."))
    else none

/-- The regex of `_parse_type` (myhelp.py 600), `^([^ ]*) is (.*)$`:
group 1 is the maximal run of non-spaces, which must be followed by
the literal ` is `; group 2 is the remainder. -/
def parseTypeLine (l : List Char) : Option (List Char × List Char) :=
  let tok := l.takeWhile fun c => !(c == ' ')
  let rest := l.drop tok.length
  if " is ".data.isPrefixOf rest then some (tok, rest.drop 4) else none

/-- `BuiltInViewer.results`: one record list per section key. -/
structure BVResults where
  ALIAS : List (String × String)
  DECLARE : List (String × String)
  SET : List (String × String)
  TYPE : List (String × String)
  deriving Repr, DecidableEq

/-- The parser state: `_mode_` and the accumulated `results`. -/
structure BVState where
  mode : Option String
  results : BVResults
  deriving Repr, DecidableEq

/-- The state a `BuiltInViewer` starts in: no section selected, all
four record lists empty. -/
def BuiltInViewer.initState : BVState := ⟨none, ⟨[], [], [], []⟩⟩

/-- `BuiltInViewer.parse` (myhelp.py 520-536) together with the
dispatched section parsers: a header line sets `_mode_`; any other
line with no section selected raises `ValueError(line)`; blank lines
are skipped; otherwise the active section's parser runs.  `_parse_type`
appends its record to the `ALIAS` result list (myhelp.py 602), exactly
as the code does.  The error carries the offending line (the unknown
section label for the dict `KeyError`s). -/
def BuiltInViewer.parse (st : BVState) (line : List Char) :
    Except String BVState :=
  if isHeaderLine line then
    .ok { st with mode := some (headerLabel line) }
  else
    match st.mode with
    | none => .error (String.mk line)
    | some m =>
      if (pyStrip line).length > 0 then
        if m = "alias" then
          match parseAliasLine line with
          | some (n, v) =>
            .ok { st with results := { st.results with
              ALIAS := st.results.ALIAS ++
                [(String.mk n, (String.mk n ++ " is aliased to " ++ String.mk v ++ "."))] } }
          | none => .error (String.mk line)
        else if m = "declare" then
          match parseDeclareLine line with
          | some (flags, name) =>
            match flags.mapM declareAttr with
            | some attrs =>
              .ok { st with results := { st.results with
                DECLARE := st.results.DECLARE ++
                  [(String.mk name, declareMsg (String.mk name) attrs)] } }
            | none => .error (String.mk line)
          | none => .ok st
        else if m = "set" then
          match parseSetLine line with
          | some r =>
            .ok { st with results := { st.results with
              SET := st.results.SET ++ [r] } }
          | none => .ok st
        else if m = "type" then
          match parseTypeLine line with
          | some (tok, desc) =>
            .ok { st with results := { st.results with
              ALIAS := st.results.ALIAS ++
                [(String.mk tok,
                  (String.mk tok ++ " is " ++ String.mk desc ++ "."))] } }
          | none => .error (String.mk line)
        else .error m
      else .ok st

/-- The line loop of `BuiltInViewer.__init__` (myhelp.py 517-518):
`rstrip` every line and feed it to `parse`. -/
def BuiltInViewer.parseAll (st : BVState) : List (List Char) →
    Except String BVState
  | [] => .ok st
  | line :: rest => do
    let st' ← BuiltInViewer.parse st (pyRstrip line)
    BuiltInViewer.parseAll st' rest

/-- C3 evaluated at a failing input: after the `### TYPE ###` header,
the data line `foo is a shell builtin` produces the record
`("foo", "foo is a shell builtin.")` — correct token and sentence —
but `_parse_type` appends it to the ALIAS section's record list
(`self.results[BuiltInViewer.Cmd.ALIAS.name]`, myhelp.py 602), not to
the TYPE section's own list, which stays empty. -/
theorem builtin_type_record_misfiled :
    BuiltInViewer.parseAll BuiltInViewer.initState
        ["### TYPE ###".data, "foo is a shell builtin".data] =
      Except.ok ⟨some "type",
        ⟨[("foo", "foo is a shell builtin.")], [], [], []⟩⟩ := by
  rfl

/-- C10: `BuiltInViewer.parse` raises `ValueError` on every non-header
line while no section is selected — including blank and
whitespace-only lines, which can never be headers — and once a section
is selected, blank lines are silently skipped, leaving the state (and
so every record list) unchanged. -/
theorem builtin_parse_preamble_blank (st : BVState) (line : List Char)
    (m : String) :
    (st.mode = none → isHeaderLine line = false →
      BuiltInViewer.parse st line = Except.error (String.mk line)) ∧
    (line.all Char.isWhitespace → isHeaderLine line = false) ∧
    (st.mode = some m → line.all Char.isWhitespace →
      BuiltInViewer.parse st line = Except.ok st) := by
  have hblank : line.all Char.isWhitespace = true → isHeaderLine line = false := by
    intro hws
    cases line with
    | nil => rfl
    | cons c t =>
      rw [List.all_cons, Bool.and_eq_true] at hws
      rw [isHeaderLine]
      have : ¬("###".data.isPrefixOf (c :: t) = true) := by
        rw [List.isPrefixOf_iff_prefix]
        rintro ⟨u, hu⟩
        have hc : c = '#' := by
          have := congrArg (List.head? ·) hu
          simpa using this.symm
        rw [hc] at hws
        exact absurd hws.1 (by decide)
      cases h : "###".data.isPrefixOf (c :: t)
      · rfl
      · exact absurd h this
  refine ⟨fun hm hh => ?_, hblank, fun hm hws => ?_⟩
  · rw [BuiltInViewer.parse]
    rw [hh]
    simp only [Bool.false_eq_true, if_false, hm]
  · rw [BuiltInViewer.parse, hblank hws]
    simp only [Bool.false_eq_true, if_false, hm]
    have hstrip : pyStrip line = [] := by
      rw [pyStrip]
      have h1 : line.dropWhile Char.isWhitespace = [] := by
        rw [List.dropWhile_eq_nil_iff]
        intro x hx
        exact List.all_eq_true.mp hws x hx
      rw [h1]
      rfl
    rw [hstrip]
    rfl

/-- Witness for C10: the whitespace-only line `"  "` raises in the
initial state and is skipped once the alias section is active. -/
theorem builtin_parse_preamble_blank_witness :
    BuiltInViewer.parse BuiltInViewer.initState "  ".data =
        Except.error (String.mk "  ".data) ∧
    BuiltInViewer.parse ⟨some "alias", ⟨[], [], [], []⟩⟩ "  ".data =
        Except.ok ⟨some "alias", ⟨[], [], [], []⟩⟩ :=
  ⟨(builtin_parse_preamble_blank BuiltInViewer.initState "  ".data "alias").1
      rfl (by decide),
   (builtin_parse_preamble_blank ⟨some "alias", ⟨[], [], [], []⟩⟩ "  ".data
      "alias").2.2 rfl (by decide)⟩

end Myhelp
